import Mathlib

/-!
Verification of the TTL cache layer of the recipe-explorer CLI
(`src/cache.js`), shallowly embedded in Lean 4.

Modelling decisions:

* JavaScript values stored in or fetched into the cache are modelled by
  the inductive `Value`, together with JavaScript truthiness (`truthy`):
  `null`, `false`, `0` and `""` are falsy; arrays and objects (even
  empty ones) are truthy.
* The backing medium (`data/cache.json`) is modelled by `FileContent`:
  it is either absent, present but unparseable (`corrupt`), or a parsed
  JSON object mapping keys to `{timestamp, data}` entries, modelled as
  an association list in insertion order (JavaScript object key order).
* Time is a `Nat` of milliseconds passed explicitly where the source
  calls `Date.now()`.  JavaScript computes `now - timestamp` as a
  possibly negative number; with `Nat` truncated subtraction a
  timestamp in the future yields age `0`, which classifies the entry as
  fresh exactly as the JavaScript comparisons do.
* `async`/`await` sequencing is pure state passing; functions that the
  source lets throw are modelled with `Except`, and the source's
  `try/catch` blocks become the corresponding case splits.
* A `fetchFn` is a black box observed only through its one invocation
  per `getCachedOrFetch` call, so it is passed as its outcome
  `Except String Value` (error message or produced value).
-/

/-- Cache keys are strings. -/
abbrev Key := String

/-- JavaScript-style values: the opaque payloads the cache stores. -/
inductive Value where
  | vNull : Value
  | vBool : Bool → Value
  | vNum : Int → Value
  | vStr : String → Value
  | vArr : List Value → Value
  | vObj : List (Key × Value) → Value

/-- JavaScript truthiness of a value: `null`, `false`, `0` and the empty
string are falsy; every array and object (empty or not) is truthy. -/
def truthy : Value → Bool
  | .vNull => false
  | .vBool b => b
  | .vNum n => n != 0
  | .vStr s => s != ""
  | .vArr _ => true
  | .vObj _ => true

/-- One stored cache entry: `{ timestamp: Date.now(), data }`
as written by `saveToCache` (src/cache.js lines 117-120). -/
structure CacheEntry where
  timestamp : Nat
  data : Value

/-- State of the backing medium `data/cache.json`: missing, present but
not parseable as JSON (`JSON.parse` throws), or a parsed mapping. -/
inductive FileContent where
  | absent : FileContent
  | corrupt : String → FileContent
  | mapping : List (Key × CacheEntry) → FileContent

/-- `CACHE_DURATION`: 24 hours in milliseconds (src/cache.js line 16). -/
def CACHE_DURATION : Nat := 24 * 60 * 60 * 1000

/-- JavaScript object property lookup `cache[key]` on the parsed mapping
(first binding wins, as object keys are unique). -/
def lookupEntry (key : Key) : List (Key × CacheEntry) → Option CacheEntry
  | [] => none
  | (k, e) :: rest => if k = key then some e else lookupEntry key rest

/-- JavaScript object property assignment `cache[key] = e`: replaces the
binding in place if the key exists, otherwise appends it. -/
def setEntry (key : Key) (e : CacheEntry) : List (Key × CacheEntry) → List (Key × CacheEntry)
  | [] => [(key, e)]
  | (k, e₀) :: rest =>
      if k = key then (key, e) :: rest else (k, e₀) :: setEntry key e rest

/-- `initializeCache()` (src/cache.js lines 25-42): if the cache file is
missing, create it holding the empty JSON object; otherwise leave the
medium untouched. -/
def initializeCache : FileContent → FileContent
  | .absent => .mapping []
  | f => f

/-- `getFromCache(key)` (src/cache.js lines 53-85): read and parse the
cache file, look up `key`, and return its data only if
`now - timestamp < CACHE_DURATION`; any read/parse error and every other
case yields `null` (here `none`). -/
def getFromCache (key : Key) (now : Nat) : FileContent → Option Value
  | .absent => none
  | .corrupt _ => none
  | .mapping m =>
      match lookupEntry key m with
      | some e => if now - e.timestamp < CACHE_DURATION then some e.data else none
      | none => none

/-- `saveToCache(key, data)` (src/cache.js lines 96-129): initialize the
medium, read and parse it, store `{timestamp: now, data}` under `key`,
write the mapping back, and return `true`; any error (in particular a
parse failure on corrupt content) is caught and yields `false` with the
medium unchanged.  Returns the success flag and the resulting medium. -/
def saveToCache (key : Key) (data : Value) (now : Nat) (file : FileContent) :
    Bool × FileContent :=
  match initializeCache file with
  | .absent => (false, .absent)
  | .corrupt raw => (false, .corrupt raw)
  | .mapping m => (true, .mapping (setEntry key ⟨now, data⟩ m))

/-- `clearExpiredCache()` (src/cache.js lines 139-179): initialize, read
and parse the medium, delete every entry with
`now - timestamp >= CACHE_DURATION`, write the mapping back only when at
least one entry was removed, and return the removed count; any error is
caught and yields `0`.  Returns the count, the resulting medium, and
whether the write-back at line 172 ran. -/
def clearExpiredCache (now : Nat) (file : FileContent) :
    Nat × FileContent × Bool :=
  match initializeCache file with
  | .absent => (0, .absent, false)
  | .corrupt raw => (0, .corrupt raw, false)
  | .mapping m =>
      let kept := m.filter (fun p => decide (now - p.2.timestamp < CACHE_DURATION))
      let removed := m.length - kept.length
      if 0 < removed then (removed, .mapping kept, true)
      else (removed, .mapping m, false)

/-- Modelled from the spec: `getIgnoringFreshness(key)` is described in
§4.2 of the specification but has no counterpart in src/cache.js (the
fallback path there calls `getFromCache` instead).  Per the spec it is
the identical lookup to `get` but returns the value regardless of age,
over a `load()` that treats missing or corrupt content as the empty
mapping. -/
def getIgnoringFreshness (key : Key) : FileContent → Option Value
  | .mapping m => (lookupEntry key m).map (·.data)
  | _ => none

/-- Truthiness of the nullable `data` variable of `getCachedOrFetch`:
`!data` is true when `data` is `null` or holds a falsy value. -/
def jsFalsy : Option Value → Bool
  | none => true
  | some v => !truthy v

/-- The message of the error thrown at src/cache.js line 224. -/
def noDataMsg : String := "Failed to fetch data and no cache available"

/-- `getCachedOrFetch(key, fetchFn, forceRefresh)` (src/cache.js lines
193-228): unless refreshing, try `getFromCache`; if that yielded nothing
truthy, run the fetch — on success save the result (ignoring the save's
outcome), on failure fall back to `getFromCache` again; finally throw
the generic error if the data in hand is still falsy, else return it.
`fetchResult` is the outcome of the single `fetchFn()` invocation.
Returns the value-or-error together with the resulting medium. -/
def getCachedOrFetch (key : Key) (fetchResult : Except String Value)
    (forceRefresh : Bool) (now : Nat) (file : FileContent) :
    Except String Value × FileContent :=
  let data₀ : Option Value :=
    if forceRefresh then none else getFromCache key now file
  let fetched : Option Value × FileContent :=
    match fetchResult with
    | .ok v => (some v, (saveToCache key v now file).2)
    | .error _ => (getFromCache key now file, file)
  let data₁ := if jsFalsy data₀ then fetched.1 else data₀
  let file₁ := if jsFalsy data₀ then fetched.2 else file
  let result : Except String Value :=
    match data₁ with
    | some v => if truthy v then .ok v else .error noDataMsg
    | none => .error noDataMsg
  (result, file₁)

/-- Operations a caller can issue against the cache (the write-capable
API surface relevant to the timestamp invariant), each timed with the
`Date.now()` instant at which it runs. -/
inductive Op where
  | put : Key → Value → Nat → Op
  | gof : Key → Except String Value → Bool → Nat → Op

/-- The `Date.now()` instant at which an operation runs. -/
def opTime : Op → Nat
  | .put _ _ t => t
  | .gof _ _ _ t => t

/-- Effect of one operation on the backing medium. -/
def stepOp (f : FileContent) : Op → FileContent
  | .put k v t => (saveToCache k v t f).2
  | .gof k r force t => (getCachedOrFetch k r force t f).2

/-- Effect of a sequence of operations on the backing medium. -/
def run (f : FileContent) : List Op → FileContent
  | [] => f
  | op :: rest => run (stepOp f op) rest

/-- The `storedAt` timestamp currently recorded for `k`, if any. -/
def tsOf (k : Key) : FileContent → Option Nat
  | .mapping m => (lookupEntry k m).map (·.timestamp)
  | _ => none

example : truthy (.vArr []) = true := rfl
example : truthy .vNull = false := rfl
example : getFromCache "k" 0 (.mapping [("k", ⟨0, .vNum 3⟩)]) = some (.vNum 3) := rfl
example : getFromCache "k" CACHE_DURATION (.mapping [("k", ⟨0, .vNum 3⟩)]) = none := rfl
example :
    getCachedOrFetch "k" (.error "boom") false CACHE_DURATION
      (.mapping [("k", ⟨0, .vStr "old"⟩)]) =
    (.error noDataMsg, .mapping [("k", ⟨0, .vStr "old"⟩)]) := rfl
example :
    getCachedOrFetch "k" (.ok .vNull) false 0 .absent =
    (.error noDataMsg, .mapping [("k", ⟨0, .vNull⟩)]) := rfl
example : clearExpiredCache 0 .absent = (0, .mapping [], false) := rfl
example :
    clearExpiredCache CACHE_DURATION
      (.mapping [("a", ⟨0, .vNum 1⟩), ("b", ⟨CACHE_DURATION, .vNum 2⟩)]) =
    (1, .mapping [("b", ⟨CACHE_DURATION, .vNum 2⟩)], true) := rfl

lemma lookupEntry_setEntry_self (k : Key) (e : CacheEntry)
    (m : List (Key × CacheEntry)) :
    lookupEntry k (setEntry k e m) = some e := by
  induction m with
  | nil => simp [setEntry, lookupEntry]
  | cons hd tl ih =>
    obtain ⟨k₀, e₀⟩ := hd
    by_cases h : k₀ = k
    · simp [setEntry, h, lookupEntry]
    · simp [setEntry, h, lookupEntry, ih]

lemma lookupEntry_setEntry_ne (k k' : Key) (e : CacheEntry)
    (m : List (Key × CacheEntry)) (h : k' ≠ k) :
    lookupEntry k (setEntry k' e m) = lookupEntry k m := by
  induction m with
  | nil => simp [setEntry, lookupEntry, h]
  | cons hd tl ih =>
    obtain ⟨k₀, e₀⟩ := hd
    by_cases h₀ : k₀ = k'
    · subst h₀; simp [setEntry, lookupEntry, h]
    · simp [setEntry, h₀, lookupEntry, ih]

lemma filter_split_length {α : Type} (p : α → Bool) (l : List α) :
    (l.filter p).length + (l.filter (fun a => !(p a))).length = l.length := by
  induction l with
  | nil => rfl
  | cons a l ih =>
    cases h : p a <;> simp [List.filter_cons, h] <;> omega

lemma filter_eq_self_of_length {α : Type} (p : α → Bool) (l : List α)
    (h : (l.filter p).length = l.length) : l.filter p = l := by
  induction l with
  | nil => rfl
  | cons a l ih =>
    cases hpa : p a
    · exfalso
      have hle := List.length_filter_le p l
      simp [List.filter_cons, hpa] at h
      omega
    · simp [List.filter_cons, hpa] at h ⊢
      exact h

lemma filter_idem {α : Type} (p : α → Bool) (l : List α) :
    (l.filter p).filter p = l.filter p := by
  induction l with
  | nil => rfl
  | cons a l ih =>
    by_cases h : p a = true <;> simp [List.filter_cons, h, ih]

/-- C1. The claim says: for a key holding a stale value, a failing fetch
makes `getCachedOrFetch` return the stale value.  The code instead calls
the freshness-filtering `getFromCache` in its catch block, so the stale
value is never found and the generic error is raised — contradicting the
code's own fallback comments.  At the failing input: the entry for
"recipe" is exactly `CACHE_DURATION` old (stale), `getIgnoringFreshness`
would find it, the fetch fails, and the call errors anyway. -/
theorem c1_stale_fallback_bug :
    getFromCache "recipe" CACHE_DURATION
      (.mapping [("recipe", ⟨0, .vStr "old"⟩)]) = none
    ∧ getIgnoringFreshness "recipe"
        (.mapping [("recipe", ⟨0, .vStr "old"⟩)]) = some (.vStr "old")
    ∧ getCachedOrFetch "recipe" (.error "network down") false CACHE_DURATION
        (.mapping [("recipe", ⟨0, .vStr "old"⟩)]) =
      (.error noDataMsg, .mapping [("recipe", ⟨0, .vStr "old"⟩)]) :=
  ⟨rfl, rfl, rfl⟩

/-- C2. The claim says a fetch that succeeds with a falsy-but-valid
value (e.g. `null`, `0`, `""`) is cached and returned.  The code does
cache it, but the final `if (!data) throw` conflates the falsy result
with a miss: at the failing input, fetching `null` for an uncached key
stores `null` in the cache yet raises the generic error instead of
returning it.  (A truthy empty collection such as `[]` is returned
correctly, as the second conjunct shows.) -/
theorem c2_falsy_fetch_bug :
    getCachedOrFetch "k" (.ok .vNull) false 0 .absent =
      (.error noDataMsg, .mapping [("k", ⟨0, .vNull⟩)])
    ∧ getCachedOrFetch "k" (.ok (.vArr [])) false 0 .absent =
      (.ok (.vArr []), .mapping [("k", ⟨0, .vArr []⟩)]) :=
  ⟨rfl, rfl⟩

/-- C3 counterexample. The claim says the `NoDataAvailable` failure
carries the original fetch failure as context.  Two different fetch
failures for a never-cached key produce the identical fixed generic
error, so the result cannot carry the original failure. -/
theorem c3_error_context_cx :
    (getCachedOrFetch "k" (.error "error-A") false 0 .absent).1 =
      .error noDataMsg
    ∧ (getCachedOrFetch "k" (.error "error-B") false 0 .absent).1 =
      .error noDataMsg
    ∧ "error-A" ≠ "error-B" :=
  ⟨rfl, rfl, by decide⟩

/-- C3 amended: for every key with no entry at all in the backing store,
a failing fetch makes `getCachedOrFetch` fail with the fixed generic
"no data available" error (the original fetch failure is only logged,
not attached), leaving the medium unchanged. -/
theorem c3_never_cached_fetch_fails (k : Key) (e : String) (now : Nat)
    (f : FileContent) (h : getIgnoringFreshness k f = none) :
    getCachedOrFetch k (.error e) false now f = (.error noDataMsg, f) := by
  cases f with
  | absent => rfl
  | corrupt raw => rfl
  | mapping m =>
    have hl : lookupEntry k m = none := by
      simpa [getIgnoringFreshness] using h
    have hg : getFromCache k now (.mapping m) = none := by
      simp [getFromCache, hl]
    simp [getCachedOrFetch, hg, jsFalsy]

/-- C3 witness: the amended theorem applied to a never-cached key with a
concrete failing fetch. -/
theorem c3_never_cached_witness :
    getIgnoringFreshness "k" .absent = none
    ∧ getCachedOrFetch "k" (.error "down") false 5 .absent =
        (.error noDataMsg, .absent) :=
  ⟨rfl, c3_never_cached_fetch_fails "k" "down" 5 .absent rfl⟩

/-- C4 counterexample. The claim says that against corrupt backing
content, `put` succeeds and overwrites the corrupt content on its next
save.  In the code `saveToCache` hits the `JSON.parse` failure, catches
it, and returns `false` with the corrupt content left in place — the
corrupt medium is never overwritten by `put`. -/
theorem c4_corrupt_put_cx :
    saveToCache "k" (.vNum 1) 5 (.corrupt "oops") = (false, .corrupt "oops") :=
  rfl

/-- C4 amended: corrupt backing content behaves like an empty mapping
for reads — `get` returns absent and no parse error is surfaced — and
initialization leaves the malformed content in place; but `put` against
corrupt content does not succeed: it reports failure (`false`) and
leaves the corrupt content unchanged rather than overwriting it. -/
theorem c4_corrupt_as_empty (raw : String) (k : Key) (v : Value) (now : Nat) :
    getFromCache k now (.corrupt raw) = none
    ∧ saveToCache k v now (.corrupt raw) = (false, .corrupt raw)
    ∧ initializeCache (.corrupt raw) = .corrupt raw :=
  ⟨rfl, rfl, rfl⟩

/-- C5. After `put(k, v)` at time `t` over mapping state `m`: `get(k)`
returns `v` strictly before `t + TTL`, returns absent from `t + TTL` on,
and the entry is not deleted — `getIgnoringFreshness(k)` still returns
`v`. -/
theorem c5_ttl_expiry (k : Key) (v : Value) (t now : Nat)
    (m : List (Key × CacheEntry)) :
    (now < t + CACHE_DURATION →
      getFromCache k now (saveToCache k v t (.mapping m)).2 = some v)
    ∧ (t + CACHE_DURATION ≤ now →
      getFromCache k now (saveToCache k v t (.mapping m)).2 = none)
    ∧ getIgnoringFreshness k (saveToCache k v t (.mapping m)).2 = some v := by
  have hD : CACHE_DURATION = 86400000 := rfl
  refine ⟨?_, ?_, ?_⟩
  · intro h
    have hfresh : now - t < CACHE_DURATION := by omega
    simp [saveToCache, initializeCache, getFromCache,
      lookupEntry_setEntry_self, hfresh]
  · intro h
    have hstale : ¬ (now - t < CACHE_DURATION) := by omega
    simp [saveToCache, initializeCache, getFromCache,
      lookupEntry_setEntry_self, hstale]
  · simp [saveToCache, initializeCache, getIgnoringFreshness,
      lookupEntry_setEntry_self]

/-- C5 witness: a concrete entry written at time 0 is served at 500 ms,
absent at exactly the TTL, and still visible ignoring freshness. -/
theorem c5_ttl_expiry_witness :
    getFromCache "x" 500 (saveToCache "x" (.vNum 7) 0 (.mapping [])).2 =
      some (.vNum 7)
    ∧ getFromCache "x" CACHE_DURATION
        (saveToCache "x" (.vNum 7) 0 (.mapping [])).2 = none
    ∧ getIgnoringFreshness "x" (saveToCache "x" (.vNum 7) 0 (.mapping [])).2 =
        some (.vNum 7) :=
  ⟨(c5_ttl_expiry "x" (.vNum 7) 0 500 []).1 (by decide),
   (c5_ttl_expiry "x" (.vNum 7) 0 CACHE_DURATION []).2.1 (by decide),
   (c5_ttl_expiry "x" (.vNum 7) 0 CACHE_DURATION []).2.2⟩

/-- C6. Immediately after a successful `put(k, v)` (same `Date.now()`
instant), both `get(k)` and `getIgnoringFreshness(k)` return `v`. -/
theorem c6_put_then_get (k : Key) (v : Value) (now : Nat) (f : FileContent)
    (h : (saveToCache k v now f).1 = true) :
    getFromCache k now (saveToCache k v now f).2 = some v
    ∧ getIgnoringFreshness k (saveToCache k v now f).2 = some v := by
  have hD : CACHE_DURATION = 86400000 := rfl
  cases f with
  | absent =>
    refine ⟨?_, ?_⟩ <;>
      simp [saveToCache, initializeCache, getFromCache, getIgnoringFreshness,
        setEntry, lookupEntry, hD]
  | corrupt raw =>
    exact absurd h (by simp [saveToCache, initializeCache])
  | mapping m =>
    have hfresh : now - now < CACHE_DURATION := by omega
    have hcd : CACHE_DURATION ≠ 0 := by decide
    refine ⟨?_, ?_⟩
    · simp [saveToCache, initializeCache, getFromCache,
        lookupEntry_setEntry_self, hfresh, hcd]
    · simp [saveToCache, initializeCache, getIgnoringFreshness,
        lookupEntry_setEntry_self]

/-- C6 witness: a concrete successful put immediately followed by both
reads. -/
theorem c6_put_then_get_witness :
    (saveToCache "k" (.vStr "soup") 3 .absent).1 = true
    ∧ getFromCache "k" 3 (saveToCache "k" (.vStr "soup") 3 .absent).2 =
        some (.vStr "soup")
    ∧ getIgnoringFreshness "k" (saveToCache "k" (.vStr "soup") 3 .absent).2 =
        some (.vStr "soup") :=
  ⟨rfl, (c6_put_then_get "k" (.vStr "soup") 3 .absent rfl).1,
   (c6_put_then_get "k" (.vStr "soup") 3 .absent rfl).2⟩

/-- C7. Over any entries mapping, `clearExpiredCache` returns exactly
the number of entries whose age is at least the TTL, leaves the medium
holding exactly the fresh entries (all others unchanged, in order), and
a second call immediately afterward removes nothing. -/
theorem c7_evict_exactly_expired (m : List (Key × CacheEntry)) (now : Nat) :
    (clearExpiredCache now (.mapping m)).1
      = (m.filter (fun q => decide (CACHE_DURATION ≤ now - q.2.timestamp))).length
    ∧ (clearExpiredCache now (.mapping m)).2.1
      = .mapping (m.filter (fun q => decide (now - q.2.timestamp < CACHE_DURATION)))
    ∧ (clearExpiredCache now ((clearExpiredCache now (.mapping m)).2.1)).1 = 0 := by
  have hpred : ∀ q : Key × CacheEntry,
      decide (CACHE_DURATION ≤ now - q.2.timestamp)
        = !(decide (now - q.2.timestamp < CACHE_DURATION)) := by
    intro q
    by_cases h : now - q.2.timestamp < CACHE_DURATION
    · simp [h]
    · simp [h]
      omega
  have hfe : m.filter (fun q => decide (CACHE_DURATION ≤ now - q.2.timestamp))
      = m.filter (fun q => !(decide (now - q.2.timestamp < CACHE_DURATION))) :=
    List.filter_congr (fun a _ => hpred a)
  have hsplit := filter_split_length
    (fun q : Key × CacheEntry => decide (now - q.2.timestamp < CACHE_DURATION)) m
  have hle := List.length_filter_le
    (fun q : Key × CacheEntry => decide (now - q.2.timestamp < CACHE_DURATION)) m
  have h1 : (clearExpiredCache now (.mapping m)).1
      = (m.filter (fun q => decide (CACHE_DURATION ≤ now - q.2.timestamp))).length := by
    rw [hfe]
    by_cases hc : 0 < m.length -
        (m.filter (fun q => decide (now - q.2.timestamp < CACHE_DURATION))).length <;>
      simp [clearExpiredCache, initializeCache, hc] <;> omega
  have h2 : (clearExpiredCache now (.mapping m)).2.1
      = .mapping (m.filter (fun q => decide (now - q.2.timestamp < CACHE_DURATION))) := by
    by_cases hc : 0 < m.length -
        (m.filter (fun q => decide (now - q.2.timestamp < CACHE_DURATION))).length
    · simp [clearExpiredCache, initializeCache, hc]
    · have hlen : (m.filter
          (fun q => decide (now - q.2.timestamp < CACHE_DURATION))).length
          = m.length := by omega
      have heq := filter_eq_self_of_length
        (fun q : Key × CacheEntry => decide (now - q.2.timestamp < CACHE_DURATION)) m hlen
      simp [clearExpiredCache, initializeCache, hc, heq]
  refine ⟨h1, h2, ?_⟩
  rw [h2]
  have hidem := filter_idem
    (fun q : Key × CacheEntry => decide (now - q.2.timestamp < CACHE_DURATION)) m
  simp [clearExpiredCache, initializeCache, hidem]

/-- C8 counterexample. The claim says that when no entry is expired the
backing medium is left untouched.  Against an absent medium no entry is
expired (there are none) and `clearExpiredCache` removes nothing, yet
the call creates the medium seeded with the empty mapping, so the medium
is not untouched. -/
theorem c8_untouched_cx :
    clearExpiredCache 0 .absent = (0, .mapping [], false)
    ∧ FileContent.mapping [] ≠ FileContent.absent :=
  ⟨rfl, fun h => FileContent.noConfusion h⟩

/-- C8 amended: `clearExpiredCache` performs the mapping write-back
exactly when at least one entry was removed, and when nothing was
removed the medium content is unchanged — except that an absent medium
is created (seeded with the empty mapping) by initialization. -/
theorem c8_write_only_on_removal (now : Nat) (f : FileContent) :
    ((clearExpiredCache now f).2.2 = true ↔ 0 < (clearExpiredCache now f).1)
    ∧ (f ≠ .absent → (clearExpiredCache now f).1 = 0 →
        (clearExpiredCache now f).2.1 = f) := by
  cases f with
  | absent =>
    refine ⟨by simp [clearExpiredCache, initializeCache], ?_⟩
    intro h
    exact absurd rfl h
  | corrupt raw =>
    exact ⟨by simp [clearExpiredCache, initializeCache], fun _ _ => rfl⟩
  | mapping m =>
    by_cases hc : 0 < m.length -
        (m.filter (fun q => decide (now - q.2.timestamp < CACHE_DURATION))).length
    · refine ⟨by simp [clearExpiredCache, initializeCache, hc], ?_⟩
      intro _ h0
      simp [clearExpiredCache, initializeCache, hc] at h0
      omega
    · refine ⟨by simp [clearExpiredCache, initializeCache, hc], fun _ _ => ?_⟩
      simp [clearExpiredCache, initializeCache, hc]

/-- C8 witness: the amended theorem applied to a concrete corrupt
medium, where nothing is removed, no write-back runs, and the medium is
unchanged. -/
theorem c8_write_only_on_removal_witness :
    (clearExpiredCache 0 (FileContent.corrupt "x")).2.1 = FileContent.corrupt "x"
    ∧ ((clearExpiredCache 0 (FileContent.corrupt "x")).2.2 = true ↔
        0 < (clearExpiredCache 0 (FileContent.corrupt "x")).1) :=
  ⟨(c8_write_only_on_removal 0 (.corrupt "x")).2
      (fun h => FileContent.noConfusion h) rfl,
   (c8_write_only_on_removal 0 (.corrupt "x")).1⟩

lemma tsOf_saveToCache (k k' : Key) (v : Value) (t : Nat) (f : FileContent) :
    tsOf k (saveToCache k' v t f).2 = tsOf k f
    ∨ tsOf k (saveToCache k' v t f).2 = some t := by
  cases f with
  | absent =>
    by_cases h : k' = k
    · subst h
      right
      simp [saveToCache, initializeCache, tsOf, setEntry, lookupEntry]
    · left
      simp [saveToCache, initializeCache, tsOf, setEntry, lookupEntry, h]
  | corrupt raw => left; rfl
  | mapping m =>
    by_cases h : k' = k
    · subst h
      right
      simp [saveToCache, initializeCache, tsOf, lookupEntry_setEntry_self]
    · left
      simp [saveToCache, initializeCache, tsOf,
        lookupEntry_setEntry_ne k k' ⟨t, v⟩ m h]

lemma getCachedOrFetch_file (k : Key) (r : Except String Value) (force : Bool)
    (now : Nat) (f : FileContent) :
    (getCachedOrFetch k r force now f).2 = f
    ∨ ∃ v, (getCachedOrFetch k r force now f).2 = (saveToCache k v now f).2 := by
  by_cases h : jsFalsy (if force then none else getFromCache k now f) = true
  · cases r with
    | ok v => right; exact ⟨v, by simp [getCachedOrFetch, h]⟩
    | error e => left; simp [getCachedOrFetch, h]
  · left; simp [getCachedOrFetch, h]

lemma tsOf_stepOp (k : Key) (f : FileContent) (op : Op) :
    tsOf k (stepOp f op) = tsOf k f
    ∨ tsOf k (stepOp f op) = some (opTime op) := by
  cases op with
  | put k' v t => exact tsOf_saveToCache k k' v t f
  | gof k' r force t =>
    simp only [stepOp, opTime]
    rcases getCachedOrFetch_file k' r force t f with h | ⟨v, h⟩
    · left; rw [h]
    · rw [h]; exact tsOf_saveToCache k k' v t f

/-- C9. Across any sequence of `put` and `getCachedOrFetch` operations
run at non-decreasing `Date.now()` instants (all at or after a bound
`t0` that dominates the key's current `storedAt`), the `storedAt`
recorded for a key never decreases: a later write never appears older
than an earlier one. -/
theorem c9_storedAt_monotone (k : Key) (ops : List Op) (f : FileContent)
    (t0 : Nat) (hch : List.Chain' (· ≤ ·) (t0 :: ops.map opTime))
    (hb : ∀ ts, tsOf k f = some ts → ts ≤ t0) :
    ∀ ts ts', tsOf k f = some ts → tsOf k (run f ops) = some ts' → ts ≤ ts' := by
  induction ops generalizing f t0 with
  | nil =>
    intro ts ts' h1 h2
    simp only [run] at h2
    rw [h1] at h2
    exact le_of_eq (Option.some.inj h2)
  | cons op rest ih =>
    intro ts ts' h1 h2
    simp only [run] at h2
    rw [List.map_cons] at hch
    obtain ⟨h01, hch'⟩ := List.chain'_cons.mp hch
    have hts : ts ≤ t0 := hb ts h1
    rcases tsOf_stepOp k f op with hs | hs
    · exact ih (stepOp f op) (opTime op) hch'
        (fun ts2 h => by
          rw [hs, h1] at h
          have hinj := Option.some.inj h
          omega)
        ts ts' (by rw [hs]; exact h1) h2
    · have h3 := ih (stepOp f op) (opTime op) hch'
        (fun ts2 h => by
          rw [hs] at h
          have hinj := Option.some.inj h
          omega)
        (opTime op) ts' hs h2
      omega

/-- C9 witness: a concrete run — an entry stored at 5 rewritten by a
`put` at 7 and a forced `getCachedOrFetch` at 9 ends with `storedAt` 9,
no older than the initial 5. -/
theorem c9_storedAt_monotone_witness :
    tsOf "k" (FileContent.mapping [("k", ⟨5, .vNum 1⟩)]) = some 5
    ∧ tsOf "k" (run (.mapping [("k", ⟨5, .vNum 1⟩)])
        [.put "k" (.vNum 2) 7, .gof "k" (.ok (.vNum 3)) true 9]) = some 9
    ∧ (5 : Nat) ≤ 9 := by
  refine ⟨rfl, rfl, ?_⟩
  exact c9_storedAt_monotone "k"
    [.put "k" (.vNum 2) 7, .gof "k" (.ok (.vNum 3)) true 9]
    (.mapping [("k", ⟨5, .vNum 1⟩)]) 5
    (by norm_num [opTime, List.chain'_cons, List.chain'_singleton])
    (fun ts h => le_of_eq (Option.some.inj h).symm)
    5 9 rfl rfl

/-- C10 counterexample. The claim says that for every fetch that
succeeds, the fetched value is returned even when persisting it fails.
A fetch succeeding with the falsy value `0` against a corrupt medium:
the save fails (`false`) and `getCachedOrFetch` raises the generic error
instead of returning `0`. -/
theorem c10_fetched_value_cx :
    getCachedOrFetch "k" (.ok (.vNum 0)) false 0 (.corrupt "oops") =
      (.error noDataMsg, .corrupt "oops")
    ∧ (saveToCache "k" (.vNum 0) 0 (.corrupt "oops")).1 = false :=
  ⟨rfl, rfl⟩

/-- C10 amended: whenever the fetch path runs (no fresh truthy cached
value) and the fetch succeeds with a truthy value, `getCachedOrFetch`
returns exactly the fetched value, whatever `saveToCache` did — a failed
cache write (which reports `false` rather than raising) never changes
the value returned. -/
theorem c10_fetched_value_returned (k : Key) (v : Value) (now : Nat)
    (f : FileContent) (hv : truthy v = true)
    (hmiss : jsFalsy (getFromCache k now f) = true) :
    getCachedOrFetch k (.ok v) false now f =
      (.ok v, (saveToCache k v now f).2) := by
  simp [getCachedOrFetch, hmiss, hv]

/-- C10 witness: the amended theorem at a corrupt medium, where the save
concretely fails yet the fetched value is returned. -/
theorem c10_fetched_value_returned_witness :
    truthy (.vNum 1) = true
    ∧ jsFalsy (getFromCache "k" 0 (.corrupt "bad")) = true
    ∧ (saveToCache "k" (.vNum 1) 0 (.corrupt "bad")).1 = false
    ∧ getCachedOrFetch "k" (.ok (.vNum 1)) false 0 (.corrupt "bad") =
        (.ok (.vNum 1), (saveToCache "k" (.vNum 1) 0 (.corrupt "bad")).2) :=
  ⟨rfl, rfl, rfl,
   c10_fetched_value_returned "k" (.vNum 1) 0 (.corrupt "bad") rfl rfl⟩
